import Mathlib

/-!
Verification development for the novel-crawler repository (main module
`wxzwgx.py`, class `FastNovelCrawler`).  The Python source is shallowly
embedded: pure helper methods become Lean functions, the retry loop and the
chain-walker loop become fuel-based state-transition functions, and the
external collaborators that the specification declares opaque (HTML markup
parsing / selector evaluation, `urljoin`, text-cosmetic cleaning, the network
itself) are threaded through as explicit function parameters ("oracles").
Machine reals from the source (`time.time()` latencies, delays) are modelled
as rationals; Python's arbitrary-precision ints are `Int` where the source
can produce negative values (the page-number extractor, whose query-parameter
rule goes through `int()`), and `Nat` for counters the source can only drive
upward from zero.
-/

namespace Novel

/-! ## Stable keyed sort

`list.sort(key=...)` in Python is a stable sort by a key function.  We model
it with Mathlib's `List.insertionSort`, which is stable: `insertionSort`
inserts earlier elements in front of later elements with an equal key.  The
key codomain is any linear order — `Nat` for sub-page sequence indices,
`Int` for extracted page numbers (which `int()` can make negative).
-/

def keyLe {α β : Type} [LinearOrder β] (key : α → β) (a b : α) : Prop :=
  key a ≤ key b

def keyLt {α β : Type} [LinearOrder β] (key : α → β) (a b : α) : Prop :=
  key a < key b

instance {α β : Type} [LinearOrder β] (key : α → β) :
    DecidableRel (keyLe key) :=
  fun a b => inferInstanceAs (Decidable (key a ≤ key b))

instance {α β : Type} [LinearOrder β] (key : α → β) : IsTotal α (keyLe key) :=
  ⟨fun a b => le_total (key a) (key b)⟩

instance {α β : Type} [LinearOrder β] (key : α → β) : IsTrans α (keyLe key) :=
  ⟨fun _ _ _ hab hbc => le_trans hab hbc⟩

instance {α β : Type} [LinearOrder β] (key : α → β) :
    IsAntisymm α (keyLt key) :=
  ⟨fun _ _ h1 h2 => absurd h2 (lt_asymm h1)⟩

/-- Model of Python's stable `list.sort(key=...)`. -/
def keyedSort {α β : Type} [LinearOrder β] (key : α → β) (l : List α) :
    List α :=
  List.insertionSort (keyLe key) l

end Novel

namespace Novel

/-! ## Pagination Resolver: page-number extraction (`_extract_page_number`)

The Python method applies, in order:
1. five `re.search` patterns over the whole URL string
   (`/page/(\d+)/?`, `/(\d+)\.html?`, `/p(\d+)\.html?`, `page=(\d+)`,
   `p=(\d+)`),
2. the first of the query parameters `page`, `p`, `paged` whose first value
   parses as an int (via `urlparse` + `parse_qs`),
3. the first digit run of the URL fragment,
and defaults to `0`.  We embed the regex patterns character-exactly: each
`matchAtN` decides a match anchored at a position, and `searchFirst` scans
positions left to right like `re.search`.  (`parse_qs` percent-decoding is
not modelled; no input in this development uses percent escapes.)
-/

/-- Value of a digit run, most significant first (`int` of the matched
group). -/
def digitsVal (ds : List Char) : Nat :=
  ds.foldl (fun acc c => acc * 10 + (c.toNat - '0'.toNat)) 0

/-- Consume an exact literal off the front of the input, returning the rest
of the input on success. -/
def dropLit : List Char → List Char → Option (List Char)
  | [], s => some s
  | _ :: _, [] => none
  | a :: as, b :: bs => if a == b then dropLit as bs else none

/-- A maximal nonempty digit run at the current position, followed by the
given literal (backtracking inside `\d+` cannot help because a shorter run
would be followed by a digit, not the literal's first character). -/
def matchDigitsThen (after : List Char) (s : List Char) : Option Nat :=
  let ds := s.takeWhile Char.isDigit
  if ds.isEmpty then none
  else
    match dropLit after (s.dropWhile Char.isDigit) with
    | some _ => some (digitsVal ds)
    | none => none

/-- Anchored match of `/page/(\d+)/?`. -/
def matchAt1 (s : List Char) : Option Nat :=
  match dropLit "/page/".toList s with
  | none => none
  | some rest => matchDigitsThen [] rest

/-- Anchored match of `/(\d+)\.html?`. -/
def matchAt2 (s : List Char) : Option Nat :=
  match dropLit "/".toList s with
  | none => none
  | some rest => matchDigitsThen ".htm".toList rest

/-- Anchored match of `/p(\d+)\.html?`. -/
def matchAt3 (s : List Char) : Option Nat :=
  match dropLit "/p".toList s with
  | none => none
  | some rest => matchDigitsThen ".htm".toList rest

/-- Anchored match of `page=(\d+)`. -/
def matchAt4 (s : List Char) : Option Nat :=
  match dropLit "page=".toList s with
  | none => none
  | some rest => matchDigitsThen [] rest

/-- Anchored match of `p=(\d+)`. -/
def matchAt5 (s : List Char) : Option Nat :=
  match dropLit "p=".toList s with
  | none => none
  | some rest => matchDigitsThen [] rest

/-- Anchored match of `(\d+)`: a nonempty digit run here. -/
def matchDigits (s : List Char) : Option Nat := matchDigitsThen [] s

/-- `re.search`: try the anchored matcher at each position, left to right.
(All patterns used here need at least one character, so the final empty
position never matches and is skipped.) -/
def searchFirst (m : List Char → Option Nat) : List Char → Option Nat
  | [] => none
  | c :: cs =>
    match m (c :: cs) with
    | some n => some n
    | none => searchFirst m cs

/-- Split at the first occurrence of `c`: text before it, and `some` text
after it when present. -/
def splitAtChar (c : Char) : List Char → List Char × Option (List Char)
  | [] => ([], none)
  | d :: ds =>
    if d == c then ([], some ds)
    else
      let (pre, post) := splitAtChar c ds
      (d :: pre, post)

/-- `urlparse(url).fragment`: everything after the first `#` (empty when
there is no `#`). -/
def urlFragment (url : List Char) : List Char :=
  match (splitAtChar '#' url).2 with
  | none => []
  | some f => f

/-- `urlparse(url).query`: in the part before any `#`, everything after the
first `?` (empty when there is no `?`). -/
def urlQuery (url : List Char) : List Char :=
  match (splitAtChar '?' (splitAtChar '#' url).1).2 with
  | none => []
  | some q => q

def splitOnCharGo (c : Char) (acc : List Char) : List Char → List (List Char)
  | [] => [acc.reverse]
  | d :: ds =>
    if d == c then acc.reverse :: splitOnCharGo c [] ds
    else splitOnCharGo c (d :: acc) ds

/-- Split into the pieces between occurrences of `c`. -/
def splitOnChar (c : Char) (l : List Char) : List (List Char) :=
  splitOnCharGo c [] l

/-- `parse_qs(query)` restricted to what the source consumes: the
`name=value` pairs in order, skipping pieces without `=` and pieces with an
empty value (`keep_blank_values` is left at `False`). -/
def queryPairs (q : List Char) : List (List Char × List Char) :=
  (splitOnChar '&' q).filterMap fun piece =>
    match splitAtChar '=' piece with
    | (_, none) => none
    | (k, some v) => if v.isEmpty then none else some (k, v)

/-- `query_params[param][0]`: first value of the parameter, when present. -/
def queryParamFirst (q : List Char) (key : List Char) : Option (List Char) :=
  ((queryPairs q).find? fun p => p.1 == key).map fun p => p.2

/-- ASCII whitespace accepted (and stripped) by Python `int()`. -/
def isPyWs (c : Char) : Bool :=
  c == ' ' || c == '\t' || c == '\n' || c == '\r' ||
    c == '\x0b' || c == '\x0c'

/-- Strip leading and trailing whitespace. -/
def stripWs (l : List Char) : List Char :=
  ((l.dropWhile isPyWs).reverse.dropWhile isPyWs).reverse

/-- Continue a digit group: underscores are allowed only singly and only
between digits (Python's integer-literal underscore grammar). -/
def digitsUndGo (acc : Nat) : List Char → Option Nat
  | [] => some acc
  | '_' :: c :: rest =>
    if c.isDigit then digitsUndGo (acc * 10 + (c.toNat - '0'.toNat)) rest
    else none
  | ['_'] => none
  | c :: rest =>
    if c.isDigit then digitsUndGo (acc * 10 + (c.toNat - '0'.toNat)) rest
    else none

/-- A digit sequence with optional single underscores between digits; must
start with a digit and be nonempty. -/
def digitsUnd : List Char → Option Nat
  | [] => none
  | c :: rest =>
    if c.isDigit then digitsUndGo (c.toNat - '0'.toNat) rest else none

/-- Python `int(v)`: strip surrounding whitespace, accept an optional sign,
then digits with underscore separators.  (Non-ASCII digits and non-ASCII
whitespace, which `int()` also accepts, are not modelled; no input in this
development uses them.) -/
def pyInt (v : List Char) : Option Int :=
  match stripWs v with
  | '+' :: rest => (digitsUnd rest).map fun n => (n : Int)
  | '-' :: rest => (digitsUnd rest).map fun n => -(n : Int)
  | rest => (digitsUnd rest).map fun n => (n : Int)

/-- Rule: the five `re.search` patterns of "method 1", over the whole URL
string, in source order.  `int` of a matched `(\d+)` group is always
non-negative. -/
def rulePath1 (url : String) : Option Int :=
  (searchFirst matchAt1 url.toList).map fun n => (n : Int)

def rulePath2 (url : String) : Option Int :=
  (searchFirst matchAt2 url.toList).map fun n => (n : Int)

def rulePath3 (url : String) : Option Int :=
  (searchFirst matchAt3 url.toList).map fun n => (n : Int)

def ruleRaw4 (url : String) : Option Int :=
  (searchFirst matchAt4 url.toList).map fun n => (n : Int)

def ruleRaw5 (url : String) : Option Int :=
  (searchFirst matchAt5 url.toList).map fun n => (n : Int)

/-- Rule: "method 2", the first of the query parameters `page`, `p`,
`paged` that is present with an `int()`-parsable first value — possibly
negative, e.g. `?p=-3` yields `-3`. -/
def ruleQuery (url : String) : Option Int :=
  let q := urlQuery url.toList
  [("page" : String), "p", "paged"].findSome? fun param =>
    (queryParamFirst q param.toList).bind pyInt

/-- Rule: "method 3", the first digit run of a nonempty fragment. -/
def ruleFrag (url : String) : Option Int :=
  let frag := urlFragment url.toList
  if frag.isEmpty then none
  else (searchFirst matchDigits frag).map fun n => (n : Int)

/-- Translation of `FastNovelCrawler._extract_page_number` (wxzwgx.py
lines 319-359): the first applicable rule wins, default `0`.  The result is
an `Int` because the query-parameter rule goes through Python `int()`,
which accepts signed values. -/
def _extract_page_number (url : String) : Int :=
  match rulePath1 url with
  | some n => n
  | none =>
  match rulePath2 url with
  | some n => n
  | none =>
  match rulePath3 url with
  | some n => n
  | none =>
  match ruleRaw4 url with
  | some n => n
  | none =>
  match ruleRaw5 url with
  | some n => n
  | none =>
  match ruleQuery url with
  | some n => n
  | none =>
  match ruleFrag url with
  | some n => n
  | none => 0

/-- The extraction procedure exactly as claim C7 words it: priority order
(a) the three path-shaped patterns, then (b) a numeric query parameter
among `page`, `p`, `paged`, then (c) a numeric fragment, else `0` — with no
rule for raw `page=N` / `p=N` substrings. -/
def claimPageNumber (url : String) : Int :=
  (([rulePath1, rulePath2, rulePath3, ruleQuery,
     ruleFrag].findSome? fun r => r url).getD 0)

/-- The amended rule list: the claim's priority order with the two raw
substring patterns `page=(\d+)` and `p=(\d+)` inserted after the
path-shaped patterns, as in the source. -/
def amendedPageNumber (url : String) : Int :=
  (([rulePath1, rulePath2, rulePath3, ruleRaw4, ruleRaw5, ruleQuery,
     ruleFrag].findSome? fun r => r url).getD 0)

/-! ## Pagination Resolver: dedup and sort -/

/-- Membership of the Python `seen` set (modelled as a list). -/
def memStr (u : String) : List String → Bool
  | [] => false
  | v :: rest => u == v || memStr u rest

def dedupGo (seen : List String) : List String → List String
  | [] => []
  | url :: rest =>
    if memStr url seen then dedupGo seen rest
    else url :: dedupGo (url :: seen) rest

/-- Translation of `_deduplicate_preserve_order` (wxzwgx.py lines 386-394):
fold with a `seen` set, keeping first occurrences.  The Python `set` is
modelled as a list used only through membership. -/
def _deduplicate_preserve_order (urls : List String) : List String :=
  dedupGo [] urls

/-- Translation of `_sort_pagination_urls` (wxzwgx.py lines 361-384): pair
each URL with its extracted page number, stable-sort by the number, project
the URLs back out.  (The `try/except` around the body cannot fire: every
operation in it is total.) -/
def _sort_pagination_urls (urls : List String) : List String :=
  let url_with_pages := urls.map fun url => (_extract_page_number url, url)
  let sorted := keyedSort (fun p : Int × String => p.1) url_with_pages
  sorted.map fun p => p.2

/-! ## URL validation -/

def schemeChar (c : Char) : Bool :=
  c.isAlpha || c.isDigit || c == '+' || c == '-' || c == '.'

/-- `urlparse(url).scheme`: the part before the first `:`, when nonempty
and made of scheme characters. -/
def urlScheme (url : List Char) : List Char :=
  match splitAtChar ':' url with
  | (_, none) => []
  | (pre, some _) => if !pre.isEmpty && pre.all schemeChar then pre else []

/-- `urlparse(url).netloc`: after the scheme, when the rest starts with
`//`, everything up to the next `/`, `?` or `#`. -/
def urlNetloc (url : List Char) : List Char :=
  let rest :=
    match splitAtChar ':' url with
    | (_, none) => url
    | (pre, some after) =>
      if !pre.isEmpty && pre.all schemeChar then after else url
  match rest with
  | '/' :: '/' :: tail =>
    tail.takeWhile fun c => !(c == '/') && !(c == '?') && !(c == '#')
  | _ => []

/-- Translation of `_validate_url` (wxzwgx.py lines 450-456):
`all([result.scheme, result.netloc])`. -/
def _validate_url (url : String) : Bool :=
  !(urlScheme url.toList).isEmpty && !(urlNetloc url.toList).isEmpty

/-! ## Content Extractor (`extract_page_content`)

HTML markup parsing / selector evaluation is an opaque external collaborator
(spec section 1), so a fetched body is interpreted through a `parse` oracle
producing a `Doc`: the answers BeautifulSoup would give to exactly the
queries the source makes.  Likewise `_clean_text` (regex cosmetic cleaning)
and `urljoin` are standard-library/external routines passed as parameters.
The network is a `fetch` oracle `String → Option String` giving the result
of `fetch_with_retry` for a URL; each embedded function also returns the
list of URLs it handed to `fetch_with_retry`, in call order. -/

/-- One anchor element as the source consumes it: its `href` attribute (if
present) and its visible text. -/
structure Link where
  href : Option String
  text : String

/-- Parsed-document oracle: `selectOne sel` is the text of
`soup.select_one(sel)`; `blurstxtParas` is the texts of the `<p>` children
of `soup.find('div', class_='blurstxt')` when that div exists;
`relNext` is the `href` attribute of `soup.find('a', rel='next')` when that
anchor exists; `select sel` is `soup.select(sel)` as links. -/
structure Doc where
  selectOne : String → Option String
  blurstxtParas : Option (List String)
  relNext : Option (Option String)
  select : String → List Link

/-- The title selector list of `extract_page_content`. -/
def title_selectors : List String :=
  ["h1", "h2", ".title", ".chapter-title", ".post-title", ".entry-title",
   "title"]

/-- The title loop: first selector whose element's cleaned text is
nonempty. -/
def findTitle (clean : String → String) (doc : Doc) : Option String :=
  title_selectors.findSome? fun sel =>
    match doc.selectOne sel with
    | none => none
    | some t =>
      let title := clean t
      if title ≠ "" then some title else none

/-- Translation of `extract_page_content` (wxzwgx.py lines 255-317).
Returns `((segments, nextUrl, title), fetchedUrls)`.  Note the source only
looks for the `rel='next'` anchor after both the `blurstxt` div and its
paragraphs were found; on the early-return paths `next_chapter_url` is the
Python `None`. -/
def extract_page_content (fetch : String → Option String)
    (parse : String → Doc) (clean : String → String)
    (urljoin : String → String → String) (base_url url : String) :
    (List String × Option String × Option String) × List String :=
  let result : List String × Option String × Option String :=
    match fetch url with
    | none => ([], none, none)
    | some body =>
      let soup := parse body
      let chapter_title := findTitle clean soup
      match soup.blurstxtParas with
      | none => ([], none, chapter_title)
      | some paras =>
        if paras.isEmpty then ([], none, chapter_title)
        else
          let content_list :=
            (paras.map clean).filter fun t => t ≠ "" && t.length > 5
          let next_chapter_url : Option String :=
            match soup.relNext with
            | none => none
            | some none => none
            | some (some h) =>
              if h ≠ "" && !h.startsWith "http" then some (urljoin base_url h)
              else some h
          (content_list, next_chapter_url, chapter_title)
  (result, [url])

/-! ## Pagination Resolver (`get_pagination_links`) -/

/-- The pagination selector list of `get_pagination_links`. -/
def pagination_selectors : List String :=
  ["a.post-page-numbers", "a[class*=\"page\"]", "a[href*=\"page\"]",
   "a[href*=\"/p\"]", ".pagination a", ".page-numbers a", ".wp-pagenavi a",
   ".pagenavi a"]

/-- The navigational-label terms filtered out of pagination candidates. -/
def nav_texts : List String := ["prev", "next", "上一", "下一", "首页", "末页"]

def listIsPrefix : List Char → List Char → Bool
  | [], _ => true
  | _ :: _, [] => false
  | a :: as, b :: bs => a == b && listIsPrefix as bs

/-- Python's substring test `needle in haystack`. -/
def containsSub (needle : List Char) : List Char → Bool
  | [] => needle.isEmpty
  | c :: cs => listIsPrefix needle (c :: cs) || containsSub needle cs

/-- The per-anchor body of the pagination loop: skip missing/empty hrefs,
skip links whose lowercased stripped text contains a navigational term,
resolve relative hrefs against the base URL, then keep the result only if
it validates and differs from the current page's URL. -/
def processLink (urljoin : String → String → String) (base_url url : String)
    (link : Link) : Option String :=
  match link.href with
  | none => none
  | some href =>
    if href = "" then none
    else
      let link_text := link.text.trim.toLower
      if nav_texts.any (fun nav => containsSub nav.toList link_text.toList)
      then none
      else
        let href :=
          if !href.startsWith "http" then urljoin base_url href else href
        if _validate_url href && href ≠ url then some href else none

/-- Translation of `get_pagination_links` (wxzwgx.py lines 396-448).
Returns `(orderedSubPageUrls, fetchedUrls)`. -/
def get_pagination_links (fetch : String → Option String)
    (parse : String → Doc) (urljoin : String → String → String)
    (base_url url : String) : List String × List String :=
  let links : List String :=
    match fetch url with
    | none => []
    | some body =>
      let soup := parse body
      let pagination_urls := pagination_selectors.flatMap fun sel =>
        (soup.select sel).filterMap (processLink urljoin base_url url)
      let pagination_urls := _deduplicate_preserve_order pagination_urls
      if pagination_urls.isEmpty then pagination_urls
      else _sort_pagination_urls pagination_urls
  (links, [url])

/-! ## Chain node step (`crawl_complete_chapter_async`) -/

/-- The sequential sub-page loop of `crawl_complete_chapter_async`
(lines 503-520): fetch each discovered sub-page in order, keeping
`(sequenceIndex, segments)` for each page with nonempty content. -/
def crawl_sub_pages (fetch : String → Option String) (parse : String → Doc)
    (clean : String → String) (urljoin : String → String → String)
    (base_url : String) : List String → Nat →
    List (Nat × List String) × List String
  | [], _ => ([], [])
  | page_url :: rest, i =>
    let (res, log) :=
      extract_page_content fetch parse clean urljoin base_url page_url
    let page_content := res.1
    let (buf, logs) := crawl_sub_pages fetch parse clean urljoin base_url rest (i + 1)
    ((if page_content.isEmpty then buf else (i, page_content) :: buf),
     log ++ logs)

/-- The indexed-buffer merge of `crawl_complete_chapter_async`
(lines 494, 522-525): start from the main page's segments, sort the buffer
by `sequenceIndex` (`page_contents.sort(key=lambda x: x[0])`) and extend. -/
def mergePageContents (main_content : List String)
    (page_contents : List (Nat × List String)) : List String :=
  (keyedSort (fun p : Nat × List String => p.1) page_contents).foldl
    (fun acc p => acc ++ p.2) main_content

/-- Translation of `crawl_complete_chapter_async` (wxzwgx.py lines
458-538).  The source launches `extract_page_content` and
`get_pagination_links` as two concurrent tasks on the same `chapter_url`;
each performs its own `fetch_with_retry` call.  Returns
`((title, segments, nextUrl), fetchedUrls)`. -/
def crawl_complete_chapter_async (fetch : String → Option String)
    (parse : String → Doc) (clean : String → String)
    (urljoin : String → String → String) (base_url chapter_url : String) :
    (Option String × List String × Option String) × List String :=
  let (main_result, log1) :=
    extract_page_content fetch parse clean urljoin base_url chapter_url
  let (pagination_links, log2) :=
    get_pagination_links fetch parse urljoin base_url chapter_url
  let main_content := main_result.1
  let next_chapter_url := main_result.2.1
  let chapter_title := main_result.2.2
  let (page_contents, log3) :=
    crawl_sub_pages fetch parse clean urljoin base_url pagination_links 0
  let all_content := mergePageContents main_content page_contents
  ((chapter_title, all_content, next_chapter_url), log1 ++ log2 ++ log3)

/-! ## Fetcher (`fetch_with_retry`)

The network is an oracle `w : Nat → Resp` giving the response observed on
attempt `k` (0-based).  The loop runs `for attempt in range(5)`
(`self.retry_count = 5`): HTTP 200 returns the body, 404 breaks out of the
loop, every other classified outcome sleeps per its schedule and retries.
Whenever the loop is left without a body — by the 404 `break` or by
exhausting the attempts — control falls through to
`self.failed_urls.add(url)`. -/

/-- Classified per-attempt outcome, mirroring the branches of
`fetch_with_retry` (wxzwgx.py lines 210-250). -/
inductive Resp where
  | ok (body : String)
  | forbidden
  | notFound
  | otherStatus (code : Nat)
  | connError
  | sslError
  | timedOut
  | otherError
deriving DecidableEq

/-- Result of one `fetch_with_retry` call: the body (when some attempt got
HTTP 200), the number of attempts performed, whether the URL was recorded
into `failed_urls`, and the seconds slept between attempts, in order. -/
structure FetchOut where
  content : Option String
  attempts : Nat
  failedRecorded : Bool
  sleeps : List Nat
deriving DecidableEq

/-- The attempt loop: `k` is the current 0-based attempt index, `fuel` the
remaining attempts (`5 - k`).  `retry_count - 1 = 4` guards the
conditional sleeps, exactly as in the source. -/
def fetchGo (w : Nat → Resp) : Nat → Nat → Option String × Nat × List Nat
  | k, 0 => (none, k, [])
  | k, fuel + 1 =>
    match w k with
    | .ok body => (some body, k + 1, [])
    | .forbidden =>
      let (c, n, s) := fetchGo w (k + 1) fuel
      (c, n, 5 :: s)
    | .notFound => (none, k + 1, [])
    | .otherStatus _ => fetchGo w (k + 1) fuel
    | .connError =>
      let (c, n, s) := fetchGo w (k + 1) fuel
      (c, n, (if k < 4 then [5 * (k + 1)] else []) ++ s)
    | .sslError =>
      let (c, n, s) := fetchGo w (k + 1) fuel
      (c, n, (if k < 4 then [3 * (k + 1)] else []) ++ s)
    | .timedOut =>
      let (c, n, s) := fetchGo w (k + 1) fuel
      (c, n, (if k < 4 then [2 * (k + 1)] else []) ++ s)
    | .otherError =>
      let (c, n, s) := fetchGo w (k + 1) fuel
      (c, n, (if k < 4 then [2 ^ k] else []) ++ s)

/-- Translation of `fetch_with_retry` (wxzwgx.py lines 208-253). -/
def fetch_with_retry (w : Nat → Resp) : FetchOut :=
  let r := fetchGo w 0 5
  { content := r.1, attempts := r.2.1, failedRecorded := r.1.isNone,
    sleeps := r.2.2 }

/-! ## Rate Controller (`_calculate_adaptive_delay`)

Latencies and delays are modelled as rationals.  `random.uniform(1.0, 2.0)`
is the parameter `r`.  The method also assigns `self.server_load_factor`;
the model returns the pair `(delay, server_load_factor)`, taking the
previous factor for the no-data branch, which leaves it untouched. -/

/-- Translation of `_calculate_adaptive_delay` (wxzwgx.py lines 130-152). -/
def _calculate_adaptive_delay (response_times : List ℚ) (base_delay : ℚ)
    (prevLoadFactor : ℚ) (r : ℚ) : ℚ × ℚ :=
  if response_times = [] then (base_delay * 2, prevLoadFactor)
  else
    let window := response_times.drop (response_times.length - 10)
    let avg_response_time := window.sum / (window.length : ℚ)
    let server_load_factor : ℚ :=
      if avg_response_time > 5 then 3
      else if avg_response_time > 3 then 5 / 2
      else if avg_response_time > 3 / 2 then 2
      else 3 / 2
    (base_delay * server_load_factor * r, server_load_factor)

/-! ## Chain Walker (`crawl_novel_from_chapter_async`)

The per-iteration behaviour of `crawl_complete_chapter_async` is abstracted
as an oracle `Nat → StepOutcome` indexed by the iteration counter: either
the awaited call returns a `(title, content, next)` triple, or it raises.
The Python local `next_chapter_url` is modelled as
`nextVar : Option (Option String)`: `none` while the variable is still
unbound (before any iteration completed the tuple assignment), otherwise
`some` of its value.  In the `except Exception` handler the source executes
`current_url = next_chapter_url`; with the variable unbound this raises
`NameError` inside the handler and escapes the loop.  File writes are
modelled as always succeeding (`records` collects the persisted chapters);
the statistics block after the loop and the `return True` at the end run
whenever the loop exits. -/

/-- Outcome of one loop iteration's awaited chapter crawl. -/
inductive StepOutcome where
  | returned (title : Option String) (content : List String)
      (next : Option String)
  | raised
deriving DecidableEq

/-- The mutable state of the walker loop, plus instrumentation: `fetched`
logs the chapter URL of every iteration that starts a crawl, `sleeps` the
seconds of the failure cooldowns, `records` the persisted chapters,
and `idx` counts iterations (feeding the oracle). -/
structure WState where
  current_url : Option String
  chapter_num : Nat
  consecutive_failures : Nat
  chapter_count : Nat
  total_words : Nat
  nextVar : Option (Option String)
  fetched : List String
  sleeps : List Nat
  records : List (Option String × List String)
  idx : Nat
deriving DecidableEq

inductive StepRes where
  | cont (s : WState)
  | exitLoop (s : WState)
  | crash (s : WState)
deriving DecidableEq

/-- Python truthiness of `current_url` in `while current_url and ...`. -/
def strTruthy : Option String → Bool
  | none => false
  | some s => s ≠ ""

/-- One iteration of the `while` loop of `crawl_novel_from_chapter_async`
(wxzwgx.py lines 628-684).  `exitLoop` covers both a falsy `current_url`
and the failure budget being exhausted (and stands in for the equivalent
`break` on a falsy `next_chapter_url`, which the guard reproduces on the
next iteration). -/
def walkerStep (oracle : Nat → StepOutcome) (s : WState) : StepRes :=
  match s.current_url with
  | none => .exitLoop s
  | some url =>
    if url = "" then .exitLoop s
    else if s.consecutive_failures < 5 then
      match oracle s.idx with
      | .raised =>
        match s.nextVar with
        | none =>
          .crash { s with
            consecutive_failures := s.consecutive_failures + 1,
            fetched := s.fetched ++ [url], idx := s.idx + 1 }
        | some stale =>
          .cont { s with
            consecutive_failures := s.consecutive_failures + 1,
            current_url := stale,
            chapter_num := s.chapter_num + 1,
            sleeps := s.sleeps ++ [5 * (s.consecutive_failures + 1)],
            fetched := s.fetched ++ [url], idx := s.idx + 1 }
      | .returned title content next =>
        if content.isEmpty then
          .cont { s with
            consecutive_failures := s.consecutive_failures + 1,
            current_url := next,
            chapter_num := s.chapter_num + 1,
            nextVar := some next,
            sleeps := s.sleeps ++
              (if s.consecutive_failures + 1 > 2 then [10] else []),
            fetched := s.fetched ++ [url], idx := s.idx + 1 }
        else
          .cont { s with
            consecutive_failures := 0,
            current_url := next,
            chapter_num := s.chapter_num + 1,
            nextVar := some next,
            chapter_count := s.chapter_count + 1,
            total_words := s.total_words + (content.map String.length).sum,
            records := s.records ++ [(title, content)],
            fetched := s.fetched ++ [url], idx := s.idx + 1 }
    else .exitLoop s

/-- Result of a whole `crawl_novel_from_chapter_async` run: the returned
boolean with the final state, an escaped exception, or exhausted fuel. -/
inductive RunOutcome where
  | returns (success : Bool) (final : WState)
  | crashed (st : WState)
  | fuelOut (st : WState)
deriving DecidableEq

/-- Fuel-bounded iteration of the walker loop.  Leaving the loop runs the
statistics block and reaches `return True`. -/
def runLoop (oracle : Nat → StepOutcome) : Nat → WState → RunOutcome
  | 0, s => .fuelOut s
  | fuel + 1, s =>
    match walkerStep oracle s with
    | .cont s' => runLoop oracle fuel s'
    | .exitLoop s' => .returns true s'
    | .crash s' => .crashed s'

/-- The loop-entry state (lines 621-626). -/
def initState (start_url : String) : WState :=
  { current_url := some start_url, chapter_num := 1,
    consecutive_failures := 0, chapter_count := 0, total_words := 0,
    nextVar := none, fetched := [], sleeps := [], records := [], idx := 0 }

/-- Translation of `crawl_novel_from_chapter_async` (wxzwgx.py lines
589-709): a failing domain check or a failing output-file initialisation
returns `False` before the loop; otherwise the loop runs and its exit
reaches `return True`. -/
def crawl_novel_from_chapter_async (domainOk initOk : Bool)
    (oracle : Nat → StepOutcome) (fuel : Nat) (start_url : String) :
    RunOutcome :=
  if !domainOk then .returns false (initState start_url)
  else if !initOk then .returns false (initState start_url)
  else runLoop oracle fuel (initState start_url)

end Novel

namespace Novel

/-! ### Generic lemmas about the stable keyed sort -/

theorem keyedSort_perm {α β : Type} [LinearOrder β] (key : α → β)
    (l : List α) : List.Perm (keyedSort key l) l :=
  List.perm_insertionSort _ l

theorem keyedSort_sorted {α β : Type} [LinearOrder β] (key : α → β)
    (l : List α) : List.Sorted (keyLe key) (keyedSort key l) :=
  List.sorted_insertionSort _ l

theorem keyedSort_eq_of_sorted {α β : Type} [LinearOrder β] (key : α → β)
    {l : List α} (h : List.Sorted (keyLe key) l) : keyedSort key l = l :=
  h.insertionSort_eq

theorem pairwise_and {α : Type} {R S : α → α → Prop} :
    ∀ {l : List α}, l.Pairwise R → l.Pairwise S →
      l.Pairwise fun a b => R a b ∧ S a b
  | [], _, _ => List.Pairwise.nil
  | _ :: _, .cons hR hRs, .cons hS hSs =>
      List.Pairwise.cons (fun b hb => ⟨hR b hb, hS b hb⟩) (pairwise_and hRs hSs)

/-- On a list whose keys are pairwise distinct, the stable keyed sort is
determined by the multiset of elements alone: any two permutations of the
list sort to the same result. -/
theorem keyedSort_eq_of_perm_of_nodup_keys {α β : Type} [LinearOrder β]
    (key : α → β) {l l' : List α} (hnd : (l.map key).Nodup)
    (hp : List.Perm l l') : keyedSort key l = keyedSort key l' := by
  have hsorted : ∀ m : List α, (m.map key).Nodup →
      List.Sorted (keyLt key) (keyedSort key m) := by
    intro m hm
    have hperm : List.Perm (keyedSort key m) m := keyedSort_perm key m
    have hmnd : ((keyedSort key m).map key).Nodup :=
      (hperm.map key).nodup_iff.mpr hm
    have hne : (keyedSort key m).Pairwise fun a b => key a ≠ key b :=
      (List.pairwise_map).mp hmnd
    have hle : (keyedSort key m).Pairwise (keyLe key) := keyedSort_sorted key m
    exact (pairwise_and hle hne).imp fun h => lt_of_le_of_ne h.1 h.2
  have hnd' : (l'.map key).Nodup := (hp.map key).nodup_iff.mp hnd
  exact List.eq_of_perm_of_sorted
    (((keyedSort_perm key l).trans hp).trans (keyedSort_perm key l').symm)
    (hsorted l hnd) (hsorted l' hnd')

theorem filter_orderedInsert_of_key_eq {α β : Type} [LinearOrder β]
    [BEq β] [LawfulBEq β] (key : α → β) (k : β) (x : α) (hx : key x = k) :
    ∀ l : List α, (List.orderedInsert (keyLe key) x l).filter
        (fun a => key a == k)
      = x :: l.filter (fun a => key a == k)
  | [] => by simp [List.orderedInsert, hx]
  | b :: l => by
    by_cases h : keyLe key x b
    · simp [List.orderedInsert, h, List.filter, hx]
    · have hb : key b < key x := lt_of_not_le h
      have hbk : ¬ (key b == k) = true := by
        simp only [beq_iff_eq]
        exact ne_of_lt (hx ▸ hb)
      simp only [List.orderedInsert, if_neg h, List.filter_cons, hbk,
        if_neg, Bool.false_eq_true, not_false_eq_true,
        filter_orderedInsert_of_key_eq key k x hx l]

theorem filter_orderedInsert_of_key_ne {α β : Type} [LinearOrder β]
    [BEq β] [LawfulBEq β] (key : α → β) (k : β) (x : α) (hx : key x ≠ k) :
    ∀ l : List α, (List.orderedInsert (keyLe key) x l).filter
        (fun a => key a == k)
      = l.filter (fun a => key a == k)
  | [] => by simp [List.orderedInsert, hx]
  | b :: l => by
    by_cases h : keyLe key x b
    · simp [List.orderedInsert, h, List.filter, hx]
    · simp only [List.orderedInsert, if_neg h, List.filter_cons,
        filter_orderedInsert_of_key_ne key k x hx l]

/-- Stability of the keyed sort: the subsequence of elements having any
fixed key value is exactly the same (same elements, same relative order)
before and after sorting. -/
theorem keyedSort_filter_key {α β : Type} [LinearOrder β] [BEq β]
    [LawfulBEq β] (key : α → β) (k : β) :
    ∀ l : List α, (keyedSort key l).filter (fun a => key a == k)
      = l.filter (fun a => key a == k)
  | [] => rfl
  | x :: l => by
    by_cases hx : key x = k
    · rw [keyedSort, List.insertionSort,
        filter_orderedInsert_of_key_eq key k x hx,
        ← keyedSort, keyedSort_filter_key key k l]
      simp [List.filter_cons, hx]
    · rw [keyedSort, List.insertionSort,
        filter_orderedInsert_of_key_ne key k x hx,
        ← keyedSort, keyedSort_filter_key key k l]
      simp [List.filter_cons, hx]

/-! ### Lemmas about the seen-set deduplication -/

theorem memStr_cons (v u : String) (seen : List String) :
    memStr v (u :: seen) = (v == u || memStr v seen) := rfl

theorem dedupGo_cons (seen : List String) (u : String) (rest : List String) :
    dedupGo seen (u :: rest)
      = if memStr u seen then dedupGo seen rest
        else u :: dedupGo (u :: seen) rest := rfl

theorem dedupGo_congr :
    ∀ (l : List String) {seen₁ seen₂ : List String},
      (∀ u, memStr u seen₁ = memStr u seen₂) →
      dedupGo seen₁ l = dedupGo seen₂ l
  | [], _, _, _ => rfl
  | u :: rest, seen₁, seen₂, h => by
    have hcons : ∀ v, memStr v (u :: seen₁) = memStr v (u :: seen₂) := by
      intro v
      rw [memStr_cons, memStr_cons, h v]
    rw [dedupGo_cons, dedupGo_cons, h u]
    by_cases hu : memStr u seen₂ = true
    · rw [if_pos hu, if_pos hu, dedupGo_congr rest h]
    · rw [if_neg hu, if_neg hu, dedupGo_congr rest hcons]

theorem dedupGo_filter (x : String) :
    ∀ (l seen : List String),
      dedupGo (x :: seen) l = dedupGo seen (l.filter fun u => u != x)
  | [], _ => rfl
  | u :: rest, seen => by
    rw [dedupGo_cons, memStr_cons, List.filter_cons]
    by_cases hux : u = x
    · subst hux
      have hbe : (u != u) = false := by simp
      rw [hbe]
      have : (u == u || memStr u seen) = true := by simp
      rw [this, if_pos rfl, dedupGo_filter u rest seen]
      simp
    · have hbe : (u != x) = true := by simp [hux]
      have hne : (u == x) = false := by simp [hux]
      rw [hbe, hne, Bool.false_or, if_pos rfl, dedupGo_cons]
      by_cases hs : memStr u seen = true
      · rw [if_pos hs, if_pos hs, dedupGo_filter x rest seen]
      · rw [if_neg hs, if_neg hs]
        have hswap : ∀ v, memStr v (u :: x :: seen) = memStr v (x :: u :: seen) := by
          intro v
          rw [memStr_cons, memStr_cons, memStr_cons, memStr_cons,
            ← Bool.or_assoc, Bool.or_comm (v == u) (v == x), Bool.or_assoc]
        rw [dedupGo_congr rest hswap, dedupGo_filter x rest (u :: seen)]

/-- The first-occurrence recurrence: deduplication keeps the head and
deduplicates the tail with all later copies of the head removed. -/
theorem dedup_cons (x : String) (l : List String) :
    _deduplicate_preserve_order (x :: l)
      = x :: _deduplicate_preserve_order (l.filter fun u => u != x) := by
  show dedupGo [] (x :: l) = _
  rw [dedupGo_cons]
  have : memStr x [] = false := rfl
  rw [this, if_neg (by simp), dedupGo_filter x l []]
  rfl

theorem mem_dedupGo {u : String} :
    ∀ {l seen : List String}, u ∈ dedupGo seen l → u ∈ l
  | [], _, h => absurd h (List.not_mem_nil u)
  | v :: rest, seen, h => by
    rw [dedupGo_cons] at h
    by_cases hv : memStr v seen = true
    · rw [if_pos hv] at h
      exact List.mem_cons_of_mem v (mem_dedupGo h)
    · rw [if_neg hv, List.mem_cons] at h
      rcases h with h | h
      · exact h ▸ List.mem_cons_self v rest
      · exact List.mem_cons_of_mem v (mem_dedupGo h)

theorem dedupGo_not_seen {u : String} :
    ∀ {l seen : List String}, u ∈ dedupGo seen l → memStr u seen = false
  | [], _, h => absurd h (List.not_mem_nil u)
  | v :: rest, seen, h => by
    rw [dedupGo_cons] at h
    by_cases hv : memStr v seen = true
    · rw [if_pos hv] at h
      exact dedupGo_not_seen h
    · rw [if_neg hv, List.mem_cons] at h
      rcases h with h | h
      · exact h ▸ Bool.eq_false_iff.mpr hv
      · have := dedupGo_not_seen h
        rw [memStr_cons, Bool.or_eq_false_iff] at this
        exact this.2

theorem nodup_dedupGo : ∀ (l seen : List String), (dedupGo seen l).Nodup
  | [], _ => List.nodup_nil
  | v :: rest, seen => by
    rw [dedupGo_cons]
    by_cases hv : memStr v seen = true
    · rw [if_pos hv]
      exact nodup_dedupGo rest seen
    · rw [if_neg hv]
      refine List.Nodup.cons (fun hmem => ?_) (nodup_dedupGo rest (v :: seen))
      have := dedupGo_not_seen hmem
      rw [memStr_cons, Bool.or_eq_false_iff] at this
      exact absurd this.1 (by simp)

theorem dedupGo_of_nodup :
    ∀ (l seen : List String), l.Nodup →
      (∀ u ∈ l, memStr u seen = false) → dedupGo seen l = l
  | [], _, _, _ => rfl
  | v :: rest, seen, hnd, hseen => by
    have hv : ¬ memStr v seen = true := by
      simp [hseen v (List.mem_cons_self v rest)]
    rw [dedupGo_cons, if_neg hv]
    refine congrArg (v :: ·) (dedupGo_of_nodup rest (v :: seen)
      (List.Nodup.of_cons hnd) ?_)
    intro u hu
    have hne : (u == v) = false := by
      simp only [beq_eq_false_iff_ne, ne_eq]
      rintro rfl
      exact (List.nodup_cons.mp hnd).1 hu
    rw [memStr_cons, hne, Bool.false_or]
    exact hseen u (List.mem_cons_of_mem v hu)

/-! ### Relating `_sort_pagination_urls` to the keyed sort -/

theorem orderedInsert_pair {α β : Type} [LinearOrder β] (key : α → β)
    (x : α) :
    ∀ l : List α,
      List.orderedInsert (keyLe fun p : β × α => p.1) (key x, x)
          (l.map fun a => (key a, a))
        = (List.orderedInsert (keyLe key) x l).map fun a => (key a, a)
  | [] => rfl
  | b :: l => by
    by_cases h : keyLe key x b
    · have h' : keyLe (fun p : β × α => p.1) (key x, x) (key b, b) := h
      simp only [List.map_cons, List.orderedInsert, if_pos h, if_pos h',
        List.map_cons]
    · have h' : ¬ keyLe (fun p : β × α => p.1) (key x, x) (key b, b) := h
      simp only [List.map_cons, List.orderedInsert, if_neg h, if_neg h',
        List.map_cons, orderedInsert_pair key x l]

theorem keyedSort_pair_map {α β : Type} [LinearOrder β] (key : α → β) :
    ∀ l : List α,
      keyedSort (fun p : β × α => p.1) (l.map fun a => (key a, a))
        = (keyedSort key l).map fun a => (key a, a)
  | [] => rfl
  | x :: l => by
    show List.orderedInsert (keyLe fun p : β × α => p.1) (key x, x)
        (keyedSort (fun p : β × α => p.1) (l.map fun a => (key a, a)))
      = (List.orderedInsert (keyLe key) x (keyedSort key l)).map
          fun a => (key a, a)
    rw [keyedSort_pair_map key l, orderedInsert_pair key x]

theorem sort_pagination_eq_keyedSort (l : List String) :
    _sort_pagination_urls l = keyedSort _extract_page_number l := by
  show (keyedSort (fun p : Int × String => p.1)
      (l.map fun url => (_extract_page_number url, url))).map (fun p => p.2)
    = keyedSort _extract_page_number l
  rw [keyedSort_pair_map _extract_page_number l, List.map_map]
  have hid : ((fun p : Int × String => p.2)
      ∘ fun url => (_extract_page_number url, url)) = id := rfl
  rw [hid, List.map_id]

/-! ### The indexed-buffer merge as an append of ordered segments -/

theorem foldl_append_eq :
    ∀ (L : List (Nat × List String)) (main : List String),
      L.foldl (fun acc p => acc ++ p.2) main = main ++ L.flatMap fun p => p.2
  | [], main => by simp
  | p :: L, main => by
    simp only [List.foldl_cons, foldl_append_eq L (main ++ p.2)]
    simp [List.append_assoc]

/-! ### Walker lemmas -/

theorem walkerStep_exit_of_budget (oracle : Nat → StepOutcome) (s : WState)
    (h : 5 ≤ s.consecutive_failures) : walkerStep oracle s = .exitLoop s := by
  match hcu : s.current_url with
  | none => simp [walkerStep, hcu]
  | some url =>
    by_cases hu : url = ""
    · simp [walkerStep, hcu, hu]
    · simp only [walkerStep, hcu]
      rw [if_neg hu, if_neg (by omega)]

theorem walkerStep_fetch_requires_budget (oracle : Nat → StepOutcome)
    (s : WState) (hne : walkerStep oracle s ≠ .exitLoop s) :
    s.consecutive_failures < 5 ∧ strTruthy s.current_url = true := by
  by_cases h5 : s.consecutive_failures < 5
  · refine ⟨h5, ?_⟩
    match hcu : s.current_url with
    | none => exact absurd (by simp [walkerStep, hcu]) hne
    | some url =>
      by_cases hu : url = ""
      · exact absurd (by simp [walkerStep, hcu, hu]) hne
      · simp [strTruthy, hu]
  · exact absurd (walkerStep_exit_of_budget oracle s (by omega)) hne

theorem walkerStep_reset_on_content (oracle : Nat → StepOutcome)
    (s s' : WState) (t : Option String) (c : List String)
    (n : Option String) (horacle : oracle s.idx = .returned t c n)
    (hc : c ≠ []) (hstep : walkerStep oracle s = .cont s') :
    s'.consecutive_failures = 0 := by
  match hcu : s.current_url with
  | none => simp [walkerStep, hcu] at hstep
  | some url =>
    by_cases hu : url = ""
    · simp [walkerStep, hcu, hu] at hstep
    · by_cases h5 : s.consecutive_failures < 5
      · have hce : c.isEmpty = false := by
          cases c with
          | nil => exact absurd rfl hc
          | cons a l => rfl
        simp only [walkerStep, hcu, if_neg hu, if_pos h5, horacle, hce,
          Bool.false_eq_true, if_neg, not_false_eq_true] at hstep
        injection hstep with h
        rw [← h]
      · rw [walkerStep_exit_of_budget oracle s (by omega)] at hstep
        exact absurd hstep (by simp)

theorem runLoop_exit_of_budget (oracle : Nat → StepOutcome) (fuel : Nat)
    (s : WState) (h : 5 ≤ s.consecutive_failures) :
    runLoop oracle (fuel + 1) s = .returns true s := by
  show (match walkerStep oracle s with
    | .cont s' => runLoop oracle fuel s'
    | .exitLoop s' => RunOutcome.returns true s'
    | .crash s' => RunOutcome.crashed s') = RunOutcome.returns true s
  rw [walkerStep_exit_of_budget oracle s h]

theorem runLoop_returns_true (oracle : Nat → StepOutcome) :
    ∀ (fuel : Nat) (s : WState) (b : Bool) (fin : WState),
      runLoop oracle fuel s = .returns b fin → b = true
  | 0, s, b, fin, h => by simp [runLoop] at h
  | fuel + 1, s, b, fin, h => by
    rw [runLoop] at h
    match hstep : walkerStep oracle s with
    | .cont s' =>
      rw [hstep] at h
      exact runLoop_returns_true oracle fuel s' b fin h
    | .exitLoop s' =>
      rw [hstep] at h
      injection h with h1 h2
      exact h1.symm
    | .crash s' =>
      rw [hstep] at h
      exact absurd h (by simp)

/-! ## Claim C5: fetch behaviour on an immediate HTTP 404 -/

/-- Claim C5 states that a URL whose first attempt yields HTTP 404 gets
exactly one attempt, a Failure result, and is NOT recorded into
`failedUrls`.  At the concrete input `w = fun _ => notFound`, the code
makes one attempt and returns Failure, but the 404 `break` falls through
to `self.failed_urls.add(url)`: the URL IS recorded, refuting the claim's
final conjunct. -/
theorem c5_counterexample :
    (fetch_with_retry fun _ => Resp.notFound)
        = { content := none, attempts := 1, failedRecorded := true,
            sleeps := [] }
      ∧ ¬ (fetch_with_retry fun _ => Resp.notFound).failedRecorded = false := by
  constructor
  · rfl
  · intro h
    simp [fetch_with_retry, fetchGo] at h

/-- Claim C5 (amended): on an immediate HTTP 404 the fetch performs exactly
one attempt (no retry, no sleep) and returns Failure, and the URL IS
recorded into `failedUrls`; recording accompanies every Failure return
(both the 404 break and attempt exhaustion), and only a success avoids
it. -/
theorem c5_notfound_single_attempt_records_failure : ∀ w : Nat → Resp,
    (w 0 = Resp.notFound →
      fetch_with_retry w
        = { content := none, attempts := 1, failedRecorded := true,
            sleeps := [] })
    ∧ (∀ b, (fetch_with_retry w).content = some b →
        (fetch_with_retry w).failedRecorded = false)
    ∧ ((fetch_with_retry w).content = none →
        (fetch_with_retry w).failedRecorded = true) := by
  intro w
  refine ⟨fun h => ?_, fun b hb => ?_, fun hn => ?_⟩
  · show (⟨(fetchGo w 0 5).1, (fetchGo w 0 5).2.1, (fetchGo w 0 5).1.isNone,
        (fetchGo w 0 5).2.2⟩ : FetchOut) = _
    have h5 : fetchGo w 0 5 = (none, 1, []) := by
      show fetchGo w 0 (4 + 1) = (none, 1, [])
      rw [fetchGo, h]
    rw [h5]
    rfl
  · show ((fetchGo w 0 5).1.isNone) = false
    have : (fetchGo w 0 5).1 = some b := hb
    rw [this]
    rfl
  · show ((fetchGo w 0 5).1.isNone) = true
    have : (fetchGo w 0 5).1 = none := hn
    rw [this]
    rfl

/-- Witness for the amended C5 theorem at concrete worlds: the all-404
world and an immediately succeeding world. -/
theorem c5_witness :
    (fetch_with_retry fun _ => Resp.notFound)
        = { content := none, attempts := 1, failedRecorded := true,
            sleeps := [] }
      ∧ (fetch_with_retry fun _ => Resp.ok "BODY").failedRecorded = false :=
  ⟨(c5_notfound_single_attempt_records_failure fun _ => Resp.notFound).1 rfl,
   (c5_notfound_single_attempt_records_failure fun _ => Resp.ok "BODY").2.1
     "BODY" rfl⟩

/-! ## Claim C8: the adaptive delay computation -/

/-- Claim C8: with an empty latency window the delay is exactly
`2 × baseDelay`; otherwise the mean of the last at-most-10 latencies maps
through the fixed thresholds `>5 → 3.0`, `>3 → 2.5`, `>1.5 → 2.0`,
else `1.5`, the load factor never drops below `1.5`, and the returned
delay is `baseDelay × loadFactor × r` with `r` the uniform random factor
drawn from `[1.0, 2.0]`. -/
theorem c8_adaptive_delay : ∀ (rts : List ℚ) (base prevF r : ℚ),
    (rts = [] → (_calculate_adaptive_delay rts base prevF r).1 = 2 * base)
    ∧ (rts ≠ [] →
        (let window := rts.drop (rts.length - 10)
         let mean := window.sum / (window.length : ℚ)
         let f := (_calculate_adaptive_delay rts base prevF r).2
         (3 / 2 ≤ f)
         ∧ ((_calculate_adaptive_delay rts base prevF r).1 = base * f * r)
         ∧ (5 < mean → f = 3)
         ∧ (3 < mean → mean ≤ 5 → f = 5 / 2)
         ∧ (3 / 2 < mean → mean ≤ 3 → f = 2)
         ∧ (mean ≤ 3 / 2 → f = 3 / 2)
         ∧ (1 ≤ r → r ≤ 2 → ∃ u : ℚ, 1 ≤ u ∧ u ≤ 2 ∧
             (_calculate_adaptive_delay rts base prevF r).1 = base * f * u))) := by
  intro rts base prevF r
  constructor
  · intro h
    rw [_calculate_adaptive_delay, if_pos h, mul_comm]
  · intro h
    rw [_calculate_adaptive_delay, if_neg h]
    dsimp only
    split_ifs with h1 h2 h3
    · exact ⟨by norm_num, rfl, fun _ => rfl, fun hlt hle => absurd h1 (not_lt.mpr hle),
        fun hlt hle => by linarith, fun hle => by linarith,
        fun hr1 hr2 => ⟨r, hr1, hr2, rfl⟩⟩
    · exact ⟨by norm_num, rfl, fun h5 => absurd h5 h1, fun _ _ => rfl,
        fun hlt hle => by linarith, fun hle => by linarith,
        fun hr1 hr2 => ⟨r, hr1, hr2, rfl⟩⟩
    · exact ⟨by norm_num, rfl, fun h5 => absurd h5 h1, fun h3' _ => absurd h3' h2,
        fun _ _ => rfl, fun hle => by linarith,
        fun hr1 hr2 => ⟨r, hr1, hr2, rfl⟩⟩
    · exact ⟨by norm_num, rfl, fun h5 => absurd h5 h1, fun h3' _ => absurd h3' h2,
        fun hlt _ => absurd hlt h3, fun _ => rfl,
        fun hr1 hr2 => ⟨r, hr1, hr2, rfl⟩⟩

/-- Witness for C8 at the spec's own example: a window with mean 4.0s
resolves the load factor to 2.5, and an empty window returns exactly
`2 × baseDelay` (with `baseDelay = 3/2`). -/
theorem c8_witness :
    (_calculate_adaptive_delay [4] (3 / 2) 1 1).2 = 5 / 2
      ∧ (_calculate_adaptive_delay [] (3 / 2) 1 1).1 = 2 * (3 / 2) := by
  constructor
  · have h := ((c8_adaptive_delay [4] (3 / 2) 1 1).2 (by decide))
    exact h.2.2.2.1 (by norm_num) (by norm_num)
  · exact (c8_adaptive_delay [] (3 / 2) 1 1).1 rfl

/-! ## Claim C3: the consecutive-failure circuit breaker -/

/-- Claim C3: the walker loop starts an iteration (and hence a fetch) only
while `consecutiveFailures < 5`; once the counter has reached 5 the step
exits the loop unchanged (no further fetch) and the remaining run returns
immediately; and an iteration whose crawl returned nonempty content resets
the counter to 0. -/
theorem c3_failure_budget :
    (∀ (oracle : Nat → StepOutcome) (s : WState),
      5 ≤ s.consecutive_failures → walkerStep oracle s = .exitLoop s)
    ∧ (∀ (oracle : Nat → StepOutcome) (s : WState),
      walkerStep oracle s ≠ .exitLoop s →
        s.consecutive_failures < 5 ∧ strTruthy s.current_url = true)
    ∧ (∀ (oracle : Nat → StepOutcome) (s s' : WState) (t : Option String)
        (c : List String) (n : Option String),
      oracle s.idx = .returned t c n → c ≠ [] →
        walkerStep oracle s = .cont s' → s'.consecutive_failures = 0)
    ∧ (∀ (oracle : Nat → StepOutcome) (fuel : Nat) (s : WState),
      5 ≤ s.consecutive_failures →
        runLoop oracle (fuel + 1) s = .returns true s) :=
  ⟨walkerStep_exit_of_budget,
   walkerStep_fetch_requires_budget,
   fun oracle s s' t c n h1 h2 h3 =>
     walkerStep_reset_on_content oracle s s' t c n h1 h2 h3,
   runLoop_exit_of_budget⟩

/-- Witness for C3 at concrete states: a state with 5 accumulated failures
exits the loop and ends the run with no further fetch, a fresh state has
budget, and an iteration returning the nonempty `["paragraph"]` resets the
counter. -/
theorem c3_witness :
    walkerStep (fun _ => StepOutcome.raised)
        { current_url := some "X", chapter_num := 6,
          consecutive_failures := 5, chapter_count := 0, total_words := 0,
          nextVar := some (some "X"), fetched := ["A"], sleeps := [],
          records := [], idx := 5 }
      = .exitLoop
        { current_url := some "X", chapter_num := 6,
          consecutive_failures := 5, chapter_count := 0, total_words := 0,
          nextVar := some (some "X"), fetched := ["A"], sleeps := [],
          records := [], idx := 5 }
    ∧ ((initState "A").consecutive_failures < 5
        ∧ strTruthy (initState "A").current_url = true)
    ∧ ({ current_url := none, chapter_num := 2,
         consecutive_failures := 0, chapter_count := 1, total_words := 9,
         nextVar := some none, fetched := ["A"], sleeps := [],
         records := [(none, ["paragraph"])],
         idx := 1 } : WState).consecutive_failures = 0
    ∧ runLoop (fun _ => StepOutcome.raised) 1
        { current_url := some "X", chapter_num := 6,
          consecutive_failures := 5, chapter_count := 0, total_words := 0,
          nextVar := some (some "X"), fetched := ["A"], sleeps := [],
          records := [], idx := 5 }
      = .returns true
        { current_url := some "X", chapter_num := 6,
          consecutive_failures := 5, chapter_count := 0, total_words := 0,
          nextVar := some (some "X"), fetched := ["A"], sleeps := [],
          records := [], idx := 5 } :=
  ⟨c3_failure_budget.1 (fun _ => StepOutcome.raised) _ (by decide),
   c3_failure_budget.2.1 (fun _ => StepOutcome.returned none ["paragraph"] none)
     (initState "A") (by decide),
   c3_failure_budget.2.2.1 (fun _ => StepOutcome.returned none ["paragraph"] none)
     (initState "A") _ none ["paragraph"] none rfl (by decide) (by decide),
   c3_failure_budget.2.2.2 (fun _ => StepOutcome.raised) 0 _ (by decide)⟩

/-! ## Claim C4: the reported outcome of a finished run -/

/-- Claim C4 states that the orchestrator reports failure when the run ends
in `Aborted` (failure budget exhausted).  Concretely, with every chapter
crawl returning empty content and a next pointer, the loop aborts after 5
consecutive failures — and the function still reaches `return True`: the
final state shows `consecutive_failures = 5` with a truthy `current_url`
(the chain was NOT exhausted), yet the reported outcome is success. -/
theorem c4_counterexample :
    crawl_novel_from_chapter_async true true
        (fun _ => StepOutcome.returned none [] (some "u")) 10 "A"
      = .returns true
          { current_url := some "u", chapter_num := 6,
            consecutive_failures := 5, chapter_count := 0, total_words := 0,
            nextVar := some (some "u"),
            fetched := ["A", "u", "u", "u", "u"],
            sleeps := [10, 10, 10], records := [], idx := 5 } := by
  rfl

/-- Claim C4 (amended): the orchestrator reports success whenever the walker
loop finishes — whether the chain was exhausted (`Terminated`) or the
failure budget was spent (`Aborted`); it reports failure exactly when the
domain check or the output-file initialisation failed before the loop. -/
theorem c4_success_iff_preparation :
    ∀ (domainOk initOk : Bool) (oracle : Nat → StepOutcome) (fuel : Nat)
      (start : String) (b : Bool) (fin : WState),
      crawl_novel_from_chapter_async domainOk initOk oracle fuel start
          = .returns b fin →
        (b = true ↔ domainOk = true ∧ initOk = true) := by
  intro domainOk initOk oracle fuel start b fin h
  match domainOk, initOk with
  | false, _ =>
    rw [crawl_novel_from_chapter_async] at h
    simp only [Bool.not_false, if_pos] at h
    injection h with h1 h2
    simp [← h1]
  | true, false =>
    rw [crawl_novel_from_chapter_async] at h
    simp only [Bool.not_true, Bool.not_false, if_neg, if_pos,
      Bool.false_eq_true, not_false_eq_true] at h
    injection h with h1 h2
    simp [← h1]
  | true, true =>
    rw [crawl_novel_from_chapter_async] at h
    simp only [Bool.not_true, if_neg, Bool.false_eq_true,
      not_false_eq_true] at h
    simp [runLoop_returns_true oracle fuel (initState start) b fin h]

/-- Witness for C4 at concrete runs: an aborted run (5 empty chapters)
reports success, and a run with a failing domain check reports failure. -/
theorem c4_witness :
    (true = true ↔ true = true ∧ true = true)
    ∧ (false = true ↔ false = true ∧ true = true) :=
  ⟨c4_success_iff_preparation true true
      (fun _ => StepOutcome.returned none [] (some "u")) 10 "A" true
      { current_url := some "u", chapter_num := 6,
        consecutive_failures := 5, chapter_count := 0, total_words := 0,
        nextVar := some (some "u"), fetched := ["A", "u", "u", "u", "u"],
        sleeps := [10, 10, 10], records := [], idx := 5 } (by rfl),
   c4_success_iff_preparation false true
      (fun _ => StepOutcome.returned none [] (some "u")) 10 "A" false
      (initState "A") (by rfl)⟩

/-! ## Claim C10: exceptions inside the walker loop -/

/-- Claim C10 states that an exception in a node's crawl — including on the
very first node — is handled like the empty-result case without the
exception escaping the walker loop.  Concretely, when the first iteration's
crawl raises, the handler's `current_url = next_chapter_url` reads the
still-unbound local `next_chapter_url` and the resulting `NameError`
escapes the loop: the run crashes instead of continuing. -/
theorem c10_counterexample :
    crawl_novel_from_chapter_async true true (fun _ => StepOutcome.raised)
        3 "A"
      = .crashed
          { current_url := some "A", chapter_num := 1,
            consecutive_failures := 1, chapter_count := 0, total_words := 0,
            nextVar := none, fetched := ["A"], sleeps := [], records := [],
            idx := 1 } := by
  rfl

/-- Claim C10 (amended): when an iteration's crawl raises, the walker
increments `consecutiveFailures` and — if a previous iteration already
bound `next_chapter_url` — sleeps `5 × consecutiveFailures` seconds and
advances to that PREVIOUS iteration's next pointer (a stale value, not one
recovered from the failing node), persisting nothing; but if the exception
hits the very first iteration, `next_chapter_url` is unbound and the
handler's own `NameError` escapes the loop. -/
theorem c10_exception_handling :
    ∀ (oracle : Nat → StepOutcome) (s : WState) (url : String),
      s.current_url = some url → url ≠ "" → s.consecutive_failures < 5 →
      oracle s.idx = .raised →
      (s.nextVar = none →
        walkerStep oracle s = .crash { s with
          consecutive_failures := s.consecutive_failures + 1,
          fetched := s.fetched ++ [url], idx := s.idx + 1 })
      ∧ (∀ stale, s.nextVar = some stale →
        walkerStep oracle s = .cont { s with
          consecutive_failures := s.consecutive_failures + 1,
          current_url := stale,
          chapter_num := s.chapter_num + 1,
          sleeps := s.sleeps ++ [5 * (s.consecutive_failures + 1)],
          fetched := s.fetched ++ [url], idx := s.idx + 1 }) := by
  intro oracle s url hcu hu h5 horacle
  constructor
  · intro hnext
    simp only [walkerStep, hcu, if_neg hu, if_pos h5, horacle, hnext]
  · intro stale hnext
    simp only [walkerStep, hcu, if_neg hu, if_pos h5, horacle, hnext]

/-- Witness for the amended C10 theorem: a first-iteration exception
crashes the run from the initial state, and with `next_chapter_url` bound
to a previous node's pointer the walker continues to that stale URL with
the escalating cooldown. -/
theorem c10_witness :
    walkerStep (fun _ => StepOutcome.raised) (initState "A")
        = .crash
          { current_url := some "A", chapter_num := 1,
            consecutive_failures := 1, chapter_count := 0, total_words := 0,
            nextVar := none, fetched := ["A"], sleeps := [], records := [],
            idx := 1 }
    ∧ walkerStep (fun _ => StepOutcome.raised)
        { current_url := some "B2", chapter_num := 2,
          consecutive_failures := 1, chapter_count := 0, total_words := 0,
          nextVar := some (some "B2"), fetched := ["A"], sleeps := [],
          records := [], idx := 1 }
        = .cont
          { current_url := some "B2", chapter_num := 3,
            consecutive_failures := 2, chapter_count := 0, total_words := 0,
            nextVar := some (some "B2"), fetched := ["A", "B2"],
            sleeps := [10], records := [], idx := 2 } :=
  ⟨(c10_exception_handling (fun _ => StepOutcome.raised) (initState "A") "A"
      rfl (by decide) (by decide) rfl).1 rfl,
   (c10_exception_handling (fun _ => StepOutcome.raised)
      { current_url := some "B2", chapter_num := 2,
        consecutive_failures := 1, chapter_count := 0, total_words := 0,
        nextVar := some (some "B2"), fetched := ["A"], sleeps := [],
        records := [], idx := 1 } "B2"
      rfl (by decide) (by decide) rfl).2 (some "B2") rfl⟩

/-! ## Claim C9: the Content Extractor on a container-less document -/

/-- Claim C9 states that a document without the `blurstxt` container still
reports the `rel='next'` pointer found in it.  Concretely, a document with
a title and a `rel='next'` anchor but no container extracts to empty
segments, the title — and `nextUrl = None`, because the source only looks
for the next anchor after the container and its paragraphs were found. -/
theorem c9_counterexample :
    (extract_page_content (fun _ => some "BODY")
        (fun _ =>
          { selectOne := fun sel => if sel = "h1" then some "T" else none,
            blurstxtParas := none,
            relNext := some (some "/next.html"),
            select := fun _ => [] })
        id (fun b r => b ++ r) "http://b" "http://b/c.html").1
      = ([], none, some "T")
    ∧ ((fun _ =>
          ({ selectOne := fun sel => if sel = "h1" then some "T" else none,
             blurstxtParas := none,
             relNext := some (some "/next.html"),
             select := fun _ => [] } : Doc)) "BODY").relNext
      = some (some "/next.html") :=
  ⟨rfl, rfl⟩

/-- Claim C9 (amended): when the content container is absent the extractor
returns empty segments and whatever title was found, but `nextUrl` is
`None` even if the document carries a `rel='next'` anchor. -/
theorem c9_missing_container :
    ∀ (fetch : String → Option String) (parse : String → Doc)
      (clean : String → String) (urljoin : String → String → String)
      (base_url url body : String),
      fetch url = some body → (parse body).blurstxtParas = none →
      extract_page_content fetch parse clean urljoin base_url url
        = (([], none, findTitle clean (parse body)), [url]) := by
  intro fetch parse clean urljoin base_url url body hf hb
  unfold extract_page_content
  rw [hf]
  dsimp only
  rw [hb]

/-- Witness for the amended C9 theorem at the concrete navigation-only
document used in the counterexample. -/
theorem c9_witness :
    extract_page_content (fun _ => some "BODY")
        (fun _ =>
          { selectOne := fun sel => if sel = "h1" then some "T" else none,
            blurstxtParas := none,
            relNext := some (some "/next.html"),
            select := fun _ => [] })
        id (fun b r => b ++ r) "http://b" "http://b/c.html"
      = (([], none, some "T"), ["http://b/c.html"]) := by
  have h := c9_missing_container (fun _ => some "BODY")
    (fun _ =>
      { selectOne := fun sel => if sel = "h1" then some "T" else none,
        blurstxtParas := none,
        relNext := some (some "/next.html"),
        select := fun _ => [] })
    id (fun b r => b ++ r) "http://b" "http://b/c.html" "BODY" rfl rfl
  exact h.trans (by rfl)

/-! ### Lemmas for the fetch log of a chain-node step -/

theorem crawl_sub_pages_log (fetch : String → Option String)
    (parse : String → Doc) (clean : String → String)
    (urljoin : String → String → String) (base_url : String) :
    ∀ (us : List String) (i : Nat),
      (crawl_sub_pages fetch parse clean urljoin base_url us i).2 = us
  | [], _ => rfl
  | u :: us, i => by
    show [u] ++ (crawl_sub_pages fetch parse clean urljoin base_url us (i + 1)).2
        = u :: us
    rw [crawl_sub_pages_log fetch parse clean urljoin base_url us (i + 1)]
    rfl

theorem processLink_ne (urljoin : String → String → String)
    (base_url url : String) (link : Link) (h : String)
    (hp : processLink urljoin base_url url link = some h) : h ≠ url := by
  unfold processLink at hp
  match hhref : link.href with
  | none => rw [hhref] at hp; exact absurd hp (by simp)
  | some href =>
    rw [hhref] at hp
    dsimp only at hp
    generalize (if (!href.startsWith "http") = true
        then urljoin base_url href else href) = X at hp
    split_ifs at hp with h1 h2 h3
    all_goals
      first
        | exact Option.noConfusion hp
        | (injection hp with hp'
           subst hp'
           exact of_decide_eq_true ((Bool.and_eq_true _ _).mp h3).2)

theorem mem_get_pagination_links (fetch : String → Option String)
    (parse : String → Doc) (urljoin : String → String → String)
    (base_url url u : String)
    (hm : u ∈ (get_pagination_links fetch parse urljoin base_url url).1) :
    u ≠ url := by
  unfold get_pagination_links at hm
  match hf : fetch url with
  | none =>
    rw [hf] at hm
    exact absurd hm (List.not_mem_nil u)
  | some body =>
    rw [hf] at hm
    dsimp only at hm
    set raw := pagination_selectors.flatMap (fun sel =>
      ((parse body).select sel).filterMap
        (processLink urljoin base_url url)) with hraw
    have hmem_dd : u ∈ _deduplicate_preserve_order raw := by
      by_cases hempty : (_deduplicate_preserve_order raw).isEmpty = true
      · rw [if_pos hempty] at hm
        exact hm
      · rw [if_neg hempty, sort_pagination_eq_keyedSort] at hm
        exact (keyedSort_perm _extract_page_number
          (_deduplicate_preserve_order raw)).mem_iff.mp hm
    have hmem_raw : u ∈ raw := mem_dedupGo hmem_dd
    rw [hraw, List.mem_flatMap] at hmem_raw
    obtain ⟨sel, _, hsel⟩ := hmem_raw
    rw [List.mem_filterMap] at hsel
    obtain ⟨link, _, hlink⟩ := hsel
    exact processLink_ne urljoin base_url url link u hlink

/-! ## Claim C2: the document is fetched twice per node step -/

/-- Claim C2 states that a chain node's document URL is fetched exactly
once per `FetchingNode` step.  Concretely (with a fetch oracle that fails
every request, so the step does nothing else), the step's fetch log
contains the document URL twice: `extract_page_content` and
`get_pagination_links` are launched as two independent tasks, each making
its own `fetch_with_retry` call for the same URL. -/
theorem c2_counterexample :
    ((crawl_complete_chapter_async (fun _ => none)
        (fun _ =>
          { selectOne := fun _ => none, blurstxtParas := none,
            relNext := none, select := fun _ => [] })
        id (fun b r => b ++ r) "http://b" "http://b/c.html").2)
      = ["http://b/c.html", "http://b/c.html"]
    ∧ ¬ ((crawl_complete_chapter_async (fun _ => none)
        (fun _ =>
          { selectOne := fun _ => none, blurstxtParas := none,
            relNext := none, select := fun _ => [] })
        id (fun b r => b ++ r) "http://b" "http://b/c.html").2).count
          "http://b/c.html" = 1 :=
  ⟨rfl, by decide⟩

/-- Claim C2 (amended): in every chain-node step the document URL is
fetched exactly twice — once by the Content Extractor task and once by the
Pagination Resolver task, each on its own retrieved body — and the
sub-page fetches never re-request the document URL (every discovered
sub-page URL differs from it). -/
theorem c2_document_fetched_twice :
    ∀ (fetch : String → Option String) (parse : String → Doc)
      (clean : String → String) (urljoin : String → String → String)
      (base_url chapter_url : String),
      ((crawl_complete_chapter_async fetch parse clean urljoin base_url
          chapter_url).2).count chapter_url = 2 := by
  intro fetch parse clean urljoin base_url chapter_url
  have hshape : (crawl_complete_chapter_async fetch parse clean urljoin
      base_url chapter_url).2
      = [chapter_url] ++ [chapter_url]
        ++ (crawl_sub_pages fetch parse clean urljoin base_url
            (get_pagination_links fetch parse urljoin base_url
              chapter_url).1 0).2 := rfl
  rw [hshape, crawl_sub_pages_log]
  have hnotmem : chapter_url ∉ (get_pagination_links fetch parse urljoin
      base_url chapter_url).1 := fun hm =>
    mem_get_pagination_links fetch parse urljoin base_url chapter_url
      chapter_url hm rfl
  rw [List.count_append, List.count_append, List.count_eq_zero.mpr hnotmem]
  simp

/-! ## Claim C1: ordered assembly of sub-page results -/

theorem flatMap_map_pair (f : Nat → List String) (l : List Nat) :
    ((l.map fun i => (i, f i)).flatMap fun p => p.2) = l.flatMap f := by
  show List.flatten ((l.map fun i => (i, f i)).map fun p => p.2)
    = List.flatten (l.map f)
  rw [List.map_map]
  rfl

/-- Claim C1: for a node with a nonempty set of discovered sub-pages, the
assembled segment list is the main page's segments followed by the
sub-pages' segments in ascending `sequenceIndex` order, and the merge is
invariant under every permutation of the order in which indexed results
arrive in the buffer. -/
theorem c1_merge_ascending_order :
    (∀ (main : List String) (n : Nat) (f : Nat → List String)
       (buffer : List (Nat × List String)),
      0 < n →
      List.Perm buffer ((List.range n).map fun i => (i, f i)) →
      mergePageContents main buffer = main ++ (List.range n).flatMap f)
    ∧ (∀ (main : List String) (b b' : List (Nat × List String)),
      (b.map Prod.fst).Nodup → List.Perm b b' →
      mergePageContents main b = mergePageContents main b') := by
  constructor
  · intro main n f buffer _hn hperm
    have hcanon_fst : ((List.range n).map fun i => (i, f i)).map Prod.fst
        = List.range n := by
      rw [List.map_map]
      exact List.map_id (List.range n)
    have hcanon_nodup : (((List.range n).map fun i => (i, f i)).map
        Prod.fst).Nodup := by
      rw [hcanon_fst]
      exact List.nodup_range n
    have hbuf_nodup : (buffer.map Prod.fst).Nodup :=
      ((hperm.map Prod.fst).nodup_iff).mpr hcanon_nodup
    have hsorted : List.Sorted (keyLe Prod.fst)
        ((List.range n).map fun i => (i, f i)) := by
      rw [List.Sorted, List.pairwise_map]
      exact (List.sorted_le_range n).imp fun hij => hij
    have hsort_eq : keyedSort Prod.fst buffer
        = (List.range n).map fun i => (i, f i) :=
      (keyedSort_eq_of_perm_of_nodup_keys Prod.fst hbuf_nodup hperm).trans
        (keyedSort_eq_of_sorted Prod.fst hsorted)
    rw [mergePageContents, hsort_eq, foldl_append_eq, flatMap_map_pair]
  · intro main b b' hnd hperm
    rw [mergePageContents, mergePageContents,
      keyedSort_eq_of_perm_of_nodup_keys Prod.fst hnd hperm]

/-- Witness for C1: the two-sub-page buffer arriving in reversed completion
order assembles to main page first, then page 0, then page 1, and agrees
with the in-order arrival. -/
theorem c1_witness :
    mergePageContents ["m"] [(1, ["p2"]), (0, ["p1"])] = ["m", "p1", "p2"]
    ∧ mergePageContents ["m"] [(1, ["p2"]), (0, ["p1"])]
      = mergePageContents ["m"] [(0, ["p1"]), (1, ["p2"])] := by
  constructor
  · have h := c1_merge_ascending_order.1 ["m"] 2
      (fun i => if i = 0 then ["p1"] else ["p2"])
      [(1, ["p2"]), (0, ["p1"])] (by decide)
      (List.Perm.swap (0, ["p1"]) (1, ["p2"]) [])
    exact h.trans (by decide)
  · exact c1_merge_ascending_order.2 ["m"] [(1, ["p2"]), (0, ["p1"])]
      [(0, ["p1"]), (1, ["p2"])] (by decide)
      (List.Perm.swap (0, ["p1"]) (1, ["p2"]) [])

/-! ## Claim C6: stability and idempotence of the dedup-sort pipeline -/

/-- Claim C6: deduplication keeps the first occurrence of each URL in
discovery order (the head-recurrence of a first-occurrence dedup); the
page-number sort keeps discovery order among URLs with any equal page
number (its filtered subsequence at each key is untouched); the
dedup-then-sort pipeline is idempotent; and its result is duplicate-free
and ascending by extracted page number. -/
theorem c6_dedup_sort_pipeline :
    (∀ (x : String) (l : List String),
      _deduplicate_preserve_order (x :: l)
        = x :: _deduplicate_preserve_order (l.filter fun u => u != x))
    ∧ (∀ (l : List String) (k : Int),
      (_sort_pagination_urls l).filter
          (fun u => _extract_page_number u == k)
        = l.filter fun u => _extract_page_number u == k)
    ∧ (∀ l : List String,
      _sort_pagination_urls (_deduplicate_preserve_order
          (_sort_pagination_urls (_deduplicate_preserve_order l)))
        = _sort_pagination_urls (_deduplicate_preserve_order l))
    ∧ (∀ l : List String,
      (_sort_pagination_urls (_deduplicate_preserve_order l)).Nodup
      ∧ (_sort_pagination_urls
          (_deduplicate_preserve_order l)).Sorted
            (keyLe _extract_page_number)) := by
  refine ⟨dedup_cons, ?_, ?_, ?_⟩
  · intro l k
    rw [sort_pagination_eq_keyedSort]
    exact keyedSort_filter_key _extract_page_number k l
  · intro l
    have hnodup : (_sort_pagination_urls
        (_deduplicate_preserve_order l)).Nodup := by
      rw [sort_pagination_eq_keyedSort]
      exact ((keyedSort_perm _extract_page_number
        (_deduplicate_preserve_order l)).nodup_iff).mpr (nodup_dedupGo l [])
    have hsorted : (_sort_pagination_urls
        (_deduplicate_preserve_order l)).Sorted
          (keyLe _extract_page_number) := by
      rw [sort_pagination_eq_keyedSort]
      exact keyedSort_sorted _extract_page_number _
    have hdedup_id : _deduplicate_preserve_order
        (_sort_pagination_urls (_deduplicate_preserve_order l))
        = _sort_pagination_urls (_deduplicate_preserve_order l) :=
      dedupGo_of_nodup _ [] hnodup (fun _ _ => rfl)
    rw [hdedup_id, sort_pagination_eq_keyedSort]
    exact keyedSort_eq_of_sorted _extract_page_number hsorted
  · intro l
    refine ⟨?_, ?_⟩
    · rw [sort_pagination_eq_keyedSort]
      exact ((keyedSort_perm _extract_page_number
        (_deduplicate_preserve_order l)).nodup_iff).mpr (nodup_dedupGo l [])
    · rw [sort_pagination_eq_keyedSort]
      exact keyedSort_sorted _extract_page_number _

/-! ## Claim C7: the page-number extraction rules and zero-page ordering -/

/-- Claim C7 asserts the extraction is determined by the rules (a) path
patterns, (b) query parameters, (c) fragment, else 0.  Concretely, at
`"http://x.com/a?p=5x"` none of the claimed rules matches (the only query
parameter `p` has the non-numeric value `5x`, there is no fragment), so the
claim demands 0 — but the source's additional raw `p=(\d+)` regex over the
whole URL string matches `p=5x` and returns 5. -/
theorem c7_counterexample :
    _extract_page_number "http://x.com/a?p=5x" = 5
    ∧ claimPageNumber "http://x.com/a?p=5x" = 0
    ∧ ¬ _extract_page_number "http://x.com/a?p=5x"
        = claimPageNumber "http://x.com/a?p=5x" := by
  refine ⟨by decide, by decide, by decide⟩

/-- Claim C7 (amended): the extracted page number is determined by the
first matching rule in priority order (a) the path-shaped patterns
`/page/N/`, `/N.htm(l)`, `/pN.htm(l)` searched over the whole URL string,
then the raw substring patterns `page=N` and `p=N`; then (b) an
`int()`-parsable query parameter among `page`, `p`, `paged`, whose value —
alone among the rules — may be negative (`?p=-3` yields `-3`); then (c)
the first number of the fragment; defaulting to 0.  In the page-number
sort, no URL with a positive page number ever precedes a URL with page
number 0 (so a defaulted URL sorts before every positive-page URL —
negative-page URLs sort earlier still), and the zero-page URLs keep their
discovery order. -/
theorem c7_page_number_priority :
    (∀ url : String, _extract_page_number url = amendedPageNumber url)
    ∧ (∀ (l : List String) (i j : Nat) (hij : i < j)
        (hj : j < (_sort_pagination_urls l).length),
      _extract_page_number ((_sort_pagination_urls l).get ⟨j, hj⟩) = 0 →
      ¬ 0 < _extract_page_number ((_sort_pagination_urls l).get
          ⟨i, Nat.lt_trans hij hj⟩))
    ∧ (∀ l : List String,
      (_sort_pagination_urls l).filter
          (fun u => _extract_page_number u == 0)
        = l.filter fun u => _extract_page_number u == 0) := by
  refine ⟨?_, ?_, ?_⟩
  · intro url
    unfold _extract_page_number amendedPageNumber
    simp only [List.findSome?_cons]
    cases rulePath1 url with
    | some n => rfl
    | none =>
    cases rulePath2 url with
    | some n => rfl
    | none =>
    cases rulePath3 url with
    | some n => rfl
    | none =>
    cases ruleRaw4 url with
    | some n => rfl
    | none =>
    cases ruleRaw5 url with
    | some n => rfl
    | none =>
    cases ruleQuery url with
    | some n => rfl
    | none =>
    cases ruleFrag url with
    | some n => rfl
    | none => rfl
  · intro l i j hij hj hzero
    have hs : List.Sorted (keyLe _extract_page_number)
        (_sort_pagination_urls l) := by
      rw [sort_pagination_eq_keyedSort]
      exact keyedSort_sorted _extract_page_number l
    have hle : keyLe _extract_page_number
        ((_sort_pagination_urls l).get ⟨i, Nat.lt_trans hij hj⟩)
        ((_sort_pagination_urls l).get ⟨j, hj⟩) :=
      List.Sorted.rel_get_of_lt hs hij
    intro hpos
    have hij' : _extract_page_number
        ((_sort_pagination_urls l).get ⟨i, Nat.lt_trans hij hj⟩)
        ≤ _extract_page_number ((_sort_pagination_urls l).get ⟨j, hj⟩) := hle
    omega
  · intro l
    rw [sort_pagination_eq_keyedSort]
    exact keyedSort_filter_key _extract_page_number 0 l

/-- Witness for the amended C7 theorem: in the sorted pagination list
`[a, b, 5.html]` the zero-page URL at position 1 is not preceded by a
positive-page URL; and the `int()` model now reproduces the source's
signed query values (`?p=-3` extracts `-3`). -/
theorem c7_witness :
    ¬ (0 : Int) < _extract_page_number ((_sort_pagination_urls
        ["http://x.com/5.html", "http://x.com/a", "http://x.com/b"]).get
        ⟨0, by decide⟩)
    ∧ _extract_page_number "http://x.com/a?p=-3" = -3 :=
  ⟨c7_page_number_priority.2.1
      ["http://x.com/5.html", "http://x.com/a", "http://x.com/b"]
      0 1 (by decide) (by decide) (by decide),
   by decide⟩

end Novel
